import Mathlib

/-!
Verification of the Resize/Reallocation Orchestration Engine of the
`pesnik/Toolkit` repository against its specification.

The repository ships the engine's documentation (`docs/PARTITION_MANAGER.md`,
the space-reallocation feature guide) and the React dialogs, but the Rust
backend sources (`reallocation_wizard.rs`, the transaction engine, the
validator) are not part of the source tree.  Components that only exist in
documentation are therefore modelled from the specification; the UI dialogs
(`ConfirmationDialog.tsx`, `BackupVerificationDialog` in
`SpaceInputDialog.tsx`) are embedded from the actual TypeScript code.
-/

namespace PartitionToolkit

/-- Filesystem kinds enumerated by the spec data model. -/
inductive FsKind
  | NTFS
  | ext4
  | FAT32
  | exFAT
  | unknown
  deriving DecidableEq, Repr

/-- Modelled from the spec: `PartitionSnapshot`, the read-only description of
one partition (identifier, disk identifier, label, start offset, total size,
used space, filesystem kind, protection flags, mount state, live-shrink
capability flag).  The Rust type lives in the absent backend sources. -/
structure PartitionSnapshot where
  part_id : String
  disk_id : String
  label : String
  start_offset : Nat
  total_size : Nat
  used_space : Nat
  fs_kind : FsKind
  is_protected : Bool
  is_mounted : Bool
  live_shrink_supported : Bool
  deriving DecidableEq, Repr

/-- Action taken on a source partition; the design restricts the Planner to
full deletion. -/
inductive SourceAction
  | DeleteEntirely
  deriving DecidableEq, Repr

/-- Step kinds of a reallocation plan, from the documented Rust enum. -/
inductive StepActionType
  | UserManual
  | AppAutomated
  | AppAssistedManual
  deriving DecidableEq, Repr

/-- Modelled from the spec: one partition identified as blocking expansion. -/
structure SourcePartitionPlan where
  partition_id : String
  partition_label : String
  current_size : Nat
  used_space : Nat
  action : SourceAction
  deriving DecidableEq, Repr

/-- Modelled from the spec: one unit of the human-followable plan. -/
structure ReallocationStep where
  step_number : Nat
  title : String
  description : String
  action_type : StepActionType
  can_automate : Bool
  deriving DecidableEq, Repr

/-- Modelled from the spec: the Planner's output for one growth request. -/
structure ReallocationPlan where
  target_partition_id : String
  source_partitions : List SourcePartitionPlan
  total_space_freed : Nat
  target_new_size : Nat
  steps : List ReallocationStep
  warnings : List String
  deriving DecidableEq, Repr

/-- Planner errors from the spec's boundary contract. -/
inductive PlanError
  | NotFound
  | InvalidArgument
  deriving DecidableEq, Repr

/-- Find a partition by identifier in a snapshot list. -/
def find_partition (disk : List PartitionSnapshot) (pid : String) :
    Option PartitionSnapshot :=
  disk.find? (fun p => p.part_id == pid)

/-- Partitions physically after the given one: the snapshot list is kept in
physical order, so these are the entries following the target entry. -/
def partitions_following : List PartitionSnapshot → String → List PartitionSnapshot
  | [], _ => []
  | p :: rest, pid =>
      if p.part_id == pid then rest else partitions_following rest pid

/-- Modelled from the spec: the Planner's walk.  Starting at the target's end
offset, accumulate each adjacent partition's full size as freeable until the
desired amount is met, stopping at a non-adjacent gap or a protected
partition. -/
def collect_sources (desired : Nat) :
    Nat → Nat → List PartitionSnapshot → List PartitionSnapshot
  | _, _, [] => []
  | acc, cursor, p :: rest =>
      if desired ≤ acc then []
      else if p.start_offset ≠ cursor then []
      else if p.is_protected then []
      else p :: collect_sources desired (acc + p.total_size)
        (p.start_offset + p.total_size) rest

/-- Unnumbered plan step, prior to sequential numbering. -/
structure RawStep where
  title : String
  description : String
  action_type : StepActionType
  can_automate : Bool
  deriving DecidableEq, Repr

/-- Assign 1-based sequential step numbers across a raw step list. -/
def assign_numbers : Nat → List RawStep → List ReallocationStep
  | _, [] => []
  | n, r :: rest =>
      ⟨n, r.title, r.description, r.action_type, r.can_automate⟩ ::
        assign_numbers (n + 1) rest

/-- Turn a consumed snapshot entry into a `SourcePartitionPlan`. -/
def source_plan_of (p : PartitionSnapshot) : SourcePartitionPlan :=
  ⟨p.part_id, p.label, p.total_size, p.used_space, SourceAction.DeleteEntirely⟩

/-- Backup warning emitted for a source partition holding data. -/
def backup_warning (p : PartitionSnapshot) : String :=
  "Partition " ++ p.label ++
    " contains data. YOU MUST BACKUP THIS DATA before proceeding!"

/-- Shortfall warning emitted when less space than requested could be freed. -/
def shortfall_warning : String :=
  "Only part of the requested space could be freed."

/-- Leading manual backup step, present when any source partition has data. -/
def backup_raw_step : RawStep :=
  ⟨"BACKUP YOUR DATA", "Back up every partition scheduled for deletion",
    StepActionType.UserManual, false⟩

/-- App-assisted manual deletion step for one source partition. -/
def delete_raw_step (p : PartitionSnapshot) : RawStep :=
  ⟨"Delete partition " ++ p.label, "Delete " ++ p.label ++ " to free its space",
    StepActionType.AppAssistedManual, true⟩

/-- Automated expansion step for the target partition. -/
def expand_raw_step (t : PartitionSnapshot) : RawStep :=
  ⟨"Expand " ++ t.label, "Expand " ++ t.label ++ " into the freed space",
    StepActionType.AppAutomated, true⟩

/-- Assemble the `ReallocationPlan` for a target and its consumed sources:
warnings and a leading manual backup step for sources holding data, one
assisted delete step per source, a final automated expand step, sequential
1-based numbering, and the capped new target size. -/
def build_plan (target_partition_id : String) (t : PartitionSnapshot)
    (sources : List PartitionSnapshot) (desired : Nat) : ReallocationPlan :=
  let freed := (sources.map (fun p => p.total_size)).sum
  let data_sources := sources.filter (fun p => decide (0 < p.used_space))
  let warns := data_sources.map backup_warning
  let warns2 := if freed < desired then warns ++ [shortfall_warning] else warns
  let raw := (if data_sources.isEmpty then [] else [backup_raw_step]) ++
    sources.map delete_raw_step ++ [expand_raw_step t]
  ⟨target_partition_id, sources.map source_plan_of, freed,
    t.total_size + min desired freed, assign_numbers 1 raw, warns2⟩

/-- Modelled from the spec: `create_space_reallocation_plan`, the Space
Reallocation Planner.  The Rust implementation (`reallocation_wizard.rs`) is
absent from the source tree; this follows the contract of spec section 4.1:
existence and positivity checks, adjacency walk, `DeleteEntirely` sources,
warning plus leading manual backup step when data is at risk, one delete step
per source, final automated expand step, sequential 1-based numbering, and
`target_new_size = total_size + min desired total_space_freed`. -/
def create_space_reallocation_plan (disk : List PartitionSnapshot)
    (target_partition_id : String) (desired_additional_space : Nat) :
    Except PlanError ReallocationPlan :=
  if desired_additional_space = 0 then Except.error PlanError.InvalidArgument
  else
    match find_partition disk target_partition_id with
    | none => Except.error PlanError.NotFound
    | some t =>
        Except.ok (build_plan target_partition_id t
          (collect_sources desired_additional_space 0
            (t.start_offset + t.total_size)
            (partitions_following disk target_partition_id))
          desired_additional_space)

/-- One gibibyte in bytes. -/
def gb (n : Nat) : Nat := n * 1073741824

/-- Identifier of the C drive in the concrete scenario. -/
def c_id : String := "C"

/-- Identifier of the E drive in the concrete scenario. -/
def e_id : String := "E"

/-- Concrete scenario partition C: 50 GB, full. -/
def drive_c : PartitionSnapshot :=
  ⟨"C", "disk0", "C:", 0, gb 50, gb 50, FsKind.NTFS, false, false, false⟩

/-- Concrete scenario partition E: 20 GB, 5 GB used. -/
def drive_e : PartitionSnapshot :=
  ⟨"E", "disk0", "E:", gb 50, gb 20, gb 5, FsKind.NTFS, false, false, false⟩

/-- Concrete scenario partition F: 30 GB, empty. -/
def drive_f : PartitionSnapshot :=
  ⟨"F", "disk0", "F:", gb 70, gb 30, 0, FsKind.NTFS, false, false, false⟩

/-- The concrete scenario disk layout from the spec. -/
def demo_disk : List PartitionSnapshot := [drive_c, drive_e, drive_f]

/-- Space freed by a planning result, `none` on error. -/
def plan_freed : Except PlanError ReallocationPlan → Option Nat
  | Except.ok p => some p.total_space_freed
  | Except.error _ => none

/-- New target size of a planning result, `none` on error. -/
def plan_new_size : Except PlanError ReallocationPlan → Option Nat
  | Except.ok p => some p.target_new_size
  | Except.error _ => none

instance : Inhabited ReallocationPlan := ⟨⟨"", [], 0, 0, [], []⟩⟩

/-- Extract the plan of a successful planning result. -/
def plan_or_default (e : Except PlanError ReallocationPlan) : ReallocationPlan :=
  match e with
  | Except.ok p => p
  | Except.error _ => default

/-- The plan the Planner produces on the concrete scenario. -/
def demo_plan : ReallocationPlan :=
  plan_or_default (create_space_reallocation_plan demo_disk c_id (gb 15))

/-! ### Resize Validator (spec section 4.2) -/

/-- Direction of a resize request. -/
inductive Direction
  | Grow
  | Shrink
  deriving DecidableEq, Repr, Fintype

/-- Validator errors from the spec's boundary contract;
`InsufficientSpace` carries the minimum safe size in bytes and
`AlignmentError` carries the nearest valid aligned size. -/
inductive ValidateError
  | NotFound
  | ProtectedPartition
  | InsufficientSpace (min_safe_size : Nat)
  | NoAdjacentSpace
  | ResourceBusy
  | AlignmentError (suggested_size : Nat)
  deriving DecidableEq, Repr

/-- Modelled from the spec: `DiskLayoutSnapshot` supplied by the external
disk-enumeration collaborator — partitions in physical order, disk size and
the disk's alignment unit. -/
structure DiskLayoutSnapshot where
  partitions : List PartitionSnapshot
  disk_size : Nat
  alignment_unit : Nat
  deriving DecidableEq, Repr

/-- Validator configuration: the configurable safety-margin fraction,
kept as an exact numerator/denominator pair of naturals so that all size
arithmetic stays in integers (the reference value 0.10 is `1 / 10`). -/
structure ValidatorConfig where
  margin_num : Nat
  margin_den : Nat
  deriving DecidableEq, Repr

/-- Contiguous unallocated space immediately following a partition: the gap
between its end offset and the next partition start (or the disk end). -/
def adjacent_free_space (snap : DiskLayoutSnapshot) (p : PartitionSnapshot) :
    Nat :=
  let endOff := p.start_offset + p.total_size
  let nextStarts := ((snap.partitions.filter (fun q =>
    decide (endOff ≤ q.start_offset) && !(q.part_id == p.part_id))).map
      (fun q => q.start_offset))
  nextStarts.foldr min snap.disk_size - endOff

/-- Minimum safe shrink size in bytes: `used_space * (1 + safety_margin)`
rounded up to a whole byte count. -/
def min_safe_size (cfg : ValidatorConfig) (p : PartitionSnapshot) : Nat :=
  (p.used_space * (cfg.margin_den + cfg.margin_num) + cfg.margin_den - 1) /
    cfg.margin_den

/-- The shrink floor check of spec section 4.2, check 3:
`target_size >= used_space * (1 + safety_margin)`, stated with the fraction
cross-multiplied so it is exact integer arithmetic. -/
def shrink_size_ok (cfg : ValidatorConfig) (p : PartitionSnapshot)
    (target_size : Nat) : Bool :=
  decide (p.used_space * (cfg.margin_den + cfg.margin_num) ≤
    target_size * cfg.margin_den)

/-- Nearest valid aligned size suggested on an alignment violation: the
requested size with the end offset rounded down to the alignment unit. -/
def aligned_suggestion (snap : DiskLayoutSnapshot) (p : PartitionSnapshot)
    (target_size : Nat) : Nat :=
  target_size - (p.start_offset + target_size) % snap.alignment_unit

/-- Modelled from the spec: `ResizeOperation`, the validated request the
Transaction Engine consumes. -/
structure ResizeOperation where
  partition_id : String
  device_path : String
  current_size : Nat
  target_size : Nat
  fs_kind : FsKind
  direction : Direction
  safe_size : Nat
  deriving DecidableEq, Repr

/-- Modelled from the spec: `validate_resize`, the Resize Validator.  The
Rust implementation is absent from the source tree; this follows the ordered
checks of spec section 4.2: existence, protection override, shrink
used-space bound with margin, grow adjacency bound, mount state, and
alignment — each failure short-circuiting with its typed reason. -/
def validate_resize (snap : DiskLayoutSnapshot) (cfg : ValidatorConfig)
    (pid : String) (target_size : Nat) (override_protected : Bool) :
    Except ValidateError ResizeOperation :=
  match find_partition snap.partitions pid with
  | none => Except.error ValidateError.NotFound
  | some p =>
      if p.is_protected && !override_protected then
        Except.error ValidateError.ProtectedPartition
      else if target_size < p.total_size then
        if !shrink_size_ok cfg p target_size then
          Except.error (ValidateError.InsufficientSpace (min_safe_size cfg p))
        else if p.is_mounted && !p.live_shrink_supported then
          Except.error ValidateError.ResourceBusy
        else if (p.start_offset + target_size) % snap.alignment_unit ≠ 0 then
          Except.error (ValidateError.AlignmentError
            (aligned_suggestion snap p target_size))
        else
          Except.ok ⟨pid, p.disk_id, p.total_size, target_size, p.fs_kind,
            Direction.Shrink, max target_size (min_safe_size cfg p)⟩
      else
        if p.total_size + adjacent_free_space snap p < target_size then
          Except.error ValidateError.NoAdjacentSpace
        else if (p.start_offset + target_size) % snap.alignment_unit ≠ 0 then
          Except.error (ValidateError.AlignmentError
            (aligned_suggestion snap p target_size))
        else
          Except.ok ⟨pid, p.disk_id, p.total_size, target_size, p.fs_kind,
            Direction.Grow,
            min target_size (p.total_size + adjacent_free_space snap p)⟩

/-- Validator configuration of the concrete scenario: 10% safety margin. -/
def demo_validator_config : ValidatorConfig := ⟨1, 10⟩

/-- Disk layout snapshot of the concrete scenario. -/
def demo_snapshot : DiskLayoutSnapshot := ⟨demo_disk, gb 100, 4096⟩

instance : Inhabited ResizeOperation :=
  ⟨⟨"", "", 0, 0, FsKind.unknown, Direction.Grow, 0⟩⟩

/-- Extract the operation of a successful validation. -/
def resize_op_or_default (e : Except ValidateError ResizeOperation) :
    ResizeOperation :=
  match e with
  | Except.ok op => op
  | Except.error _ => default

/-- The operation produced by a valid shrink of E to 10 GB. -/
def demo_shrink_op : ResizeOperation :=
  resize_op_or_default
    (validate_resize demo_snapshot demo_validator_config e_id (gb 10) false)

/-! ### Transaction Engine state machine (spec section 4.3) -/

/-- Phases of a Transaction, including the terminal states. -/
inductive Phase
  | Pending
  | Validating
  | BackupConfirmed
  | TransactionOpen
  | FilesystemResized
  | PartitionTableUpdated
  | Verifying
  | Committed
  | RollingBack
  | RolledBack
  | Failed
  deriving DecidableEq, Repr, Fintype

/-- Modelled from the spec: the forward transitions of the engine's state
machine, with the direction-dependent ordering of the filesystem resize and
the partition-table update. -/
def forward_step (d : Direction) (p q : Phase) : Bool :=
  match p, q with
  | Phase.Pending, Phase.Validating => true
  | Phase.Validating, Phase.BackupConfirmed => true
  | Phase.BackupConfirmed, Phase.TransactionOpen => true
  | Phase.TransactionOpen, Phase.FilesystemResized => d == Direction.Shrink
  | Phase.TransactionOpen, Phase.PartitionTableUpdated => d == Direction.Grow
  | Phase.FilesystemResized, Phase.PartitionTableUpdated =>
      d == Direction.Shrink
  | Phase.PartitionTableUpdated, Phase.FilesystemResized => d == Direction.Grow
  | Phase.PartitionTableUpdated, Phase.Verifying => d == Direction.Shrink
  | Phase.FilesystemResized, Phase.Verifying => d == Direction.Grow
  | Phase.Verifying, Phase.Committed => true
  | _, _ => false

/-- Phases from which a failure can occur (every non-terminal phase outside
rollback). -/
def can_fail : Phase → Bool
  | Phase.Pending => true
  | Phase.Validating => true
  | Phase.BackupConfirmed => true
  | Phase.TransactionOpen => true
  | Phase.FilesystemResized => true
  | Phase.PartitionTableUpdated => true
  | Phase.Verifying => true
  | _ => false

/-- Modelled from the spec: the full transition relation of the engine —
forward progress, failure into `RollingBack`, and rollback resolving to
`RolledBack` or, when rollback itself fails, `Failed`. -/
def engine_step (d : Direction) (p q : Phase) : Bool :=
  forward_step d p q ||
    (can_fail p && q == Phase.RollingBack) ||
    (p == Phase.RollingBack &&
      (q == Phase.RolledBack || q == Phase.Failed))

/-- Trajectories of the engine: `Traj d p l r` says `l` is the list of
phases visited by a run from `p` to `r` under direction `d`. -/
inductive Traj (d : Direction) : Phase → List Phase → Phase → Prop
  | single (p : Phase) : Traj d p [p] p
  | cons {p q : Phase} {l : List Phase} {r : Phase} :
      engine_step d p q = true → Traj d q l r → Traj d p (p :: l) r

/-- Phases from which `Committed` is still reachable. -/
def okFrom : Phase → Bool
  | Phase.RollingBack => false
  | Phase.RolledBack => false
  | Phase.Failed => false
  | _ => true

/-- The unique forward successor of each phase on the success path. -/
def succ_phase (d : Direction) : Phase → Phase
  | Phase.Pending => Phase.Validating
  | Phase.Validating => Phase.BackupConfirmed
  | Phase.BackupConfirmed => Phase.TransactionOpen
  | Phase.TransactionOpen =>
      match d with
      | Direction.Shrink => Phase.FilesystemResized
      | Direction.Grow => Phase.PartitionTableUpdated
  | Phase.FilesystemResized =>
      match d with
      | Direction.Shrink => Phase.PartitionTableUpdated
      | Direction.Grow => Phase.Verifying
  | Phase.PartitionTableUpdated =>
      match d with
      | Direction.Shrink => Phase.Verifying
      | Direction.Grow => Phase.FilesystemResized
  | Phase.Verifying => Phase.Committed
  | p => p

/-- The remaining success-path phases after a phase, up to `Committed`. -/
def tail_chain (d : Direction) : Phase → List Phase
  | Phase.Pending =>
      match d with
      | Direction.Shrink =>
          [Phase.Validating, Phase.BackupConfirmed, Phase.TransactionOpen,
            Phase.FilesystemResized, Phase.PartitionTableUpdated,
            Phase.Verifying, Phase.Committed]
      | Direction.Grow =>
          [Phase.Validating, Phase.BackupConfirmed, Phase.TransactionOpen,
            Phase.PartitionTableUpdated, Phase.FilesystemResized,
            Phase.Verifying, Phase.Committed]
  | Phase.Validating =>
      match d with
      | Direction.Shrink =>
          [Phase.BackupConfirmed, Phase.TransactionOpen,
            Phase.FilesystemResized, Phase.PartitionTableUpdated,
            Phase.Verifying, Phase.Committed]
      | Direction.Grow =>
          [Phase.BackupConfirmed, Phase.TransactionOpen,
            Phase.PartitionTableUpdated, Phase.FilesystemResized,
            Phase.Verifying, Phase.Committed]
  | Phase.BackupConfirmed =>
      match d with
      | Direction.Shrink =>
          [Phase.TransactionOpen, Phase.FilesystemResized,
            Phase.PartitionTableUpdated, Phase.Verifying, Phase.Committed]
      | Direction.Grow =>
          [Phase.TransactionOpen, Phase.PartitionTableUpdated,
            Phase.FilesystemResized, Phase.Verifying, Phase.Committed]
  | Phase.TransactionOpen =>
      match d with
      | Direction.Shrink =>
          [Phase.FilesystemResized, Phase.PartitionTableUpdated,
            Phase.Verifying, Phase.Committed]
      | Direction.Grow =>
          [Phase.PartitionTableUpdated, Phase.FilesystemResized,
            Phase.Verifying, Phase.Committed]
  | Phase.FilesystemResized =>
      match d with
      | Direction.Shrink =>
          [Phase.PartitionTableUpdated, Phase.Verifying, Phase.Committed]
      | Direction.Grow => [Phase.Verifying, Phase.Committed]
  | Phase.PartitionTableUpdated =>
      match d with
      | Direction.Shrink => [Phase.Verifying, Phase.Committed]
      | Direction.Grow =>
          [Phase.FilesystemResized, Phase.Verifying, Phase.Committed]
  | Phase.Verifying => [Phase.Committed]
  | _ => []

/-! ### Progress and Audit Reporter (spec section 4.4) -/

/-- Reference completion percentage of each phase, per direction (spec
section 4.3 reference percentages; the rollback phases carry no reference
percentage and are excluded from the reporter's forward stream). -/
def percent (d : Direction) : Phase → Nat
  | Phase.Pending => 0
  | Phase.Validating => 5
  | Phase.BackupConfirmed => 15
  | Phase.TransactionOpen => 20
  | Phase.FilesystemResized =>
      match d with
      | Direction.Shrink => 60
      | Direction.Grow => 90
  | Phase.PartitionTableUpdated =>
      match d with
      | Direction.Shrink => 90
      | Direction.Grow => 60
  | Phase.Verifying => 95
  | Phase.Committed => 100
  | _ => 0

/-- Human-readable name of a phase. -/
def phase_name : Phase → String
  | Phase.Pending => "Pending"
  | Phase.Validating => "Validating"
  | Phase.BackupConfirmed => "BackupConfirmed"
  | Phase.TransactionOpen => "TransactionOpen"
  | Phase.FilesystemResized => "FilesystemResized"
  | Phase.PartitionTableUpdated => "PartitionTableUpdated"
  | Phase.Verifying => "Verifying"
  | Phase.Committed => "Committed"
  | Phase.RollingBack => "RollingBack"
  | Phase.RolledBack => "RolledBack"
  | Phase.Failed => "Failed"

/-- Modelled from the spec: `ProgressEvent` — phase name, percentage,
status text, timestamp. -/
structure ProgressEvent where
  event_phase : String
  percentage : Nat
  status_text : String
  timestamp : Nat
  deriving DecidableEq, Repr

/-- Modelled from the spec: the Reporter emits exactly one `ProgressEvent`
per phase transition of a run, in order. -/
def progress_events (d : Direction) (l : List Phase) : List ProgressEvent :=
  l.map (fun p => ⟨phase_name p, percent d p, phase_name p, 0⟩)

/-! ### Transaction checkpoints and rollback (spec section 4.3) -/

/-- Observable disk state of the affected partition: its extent and the
filesystem size, as a fresh snapshot would report them. -/
structure DiskState where
  extent_start : Nat
  extent_size : Nat
  fs_size : Nat
  deriving DecidableEq, Repr

/-- Forward actions the engine invokes through external tools. -/
inductive ForwardAction
  | ResizeFs (new_size : Nat)
  | UpdateTable (new_start : Nat) (new_size : Nat)
  deriving DecidableEq, Repr

/-- Effect of a forward action on the disk state. -/
def apply_action (s : DiskState) : ForwardAction → DiskState
  | ForwardAction.ResizeFs n => ⟨s.extent_start, s.extent_size, n⟩
  | ForwardAction.UpdateTable a b => ⟨a, b, s.fs_size⟩

/-- A checkpoint's compensating action: the pre-image needed to reverse one
forward action, captured before the forward action ran. -/
inductive Compensation
  | RestoreFs (old_size : Nat)
  | RestoreTable (old_start : Nat) (old_size : Nat)
  deriving DecidableEq, Repr

/-- Modelled from the spec: the checkpoint recorded for a forward action at
a given state — the pre-image of what the action overwrites. -/
def checkpoint_of (s : DiskState) : ForwardAction → Compensation
  | ForwardAction.ResizeFs _ => Compensation.RestoreFs s.fs_size
  | ForwardAction.UpdateTable _ _ =>
      Compensation.RestoreTable s.extent_start s.extent_size

/-- Effect of replaying one compensating action. -/
def apply_compensation (s : DiskState) : Compensation → DiskState
  | Compensation.RestoreFs n => ⟨s.extent_start, s.extent_size, n⟩
  | Compensation.RestoreTable a b => ⟨a, b, s.fs_size⟩

/-- Run the forward actions in order, returning the final state and the
checkpoint list in append order. -/
def run_forward (s : DiskState) : List ForwardAction →
    DiskState × List Compensation
  | [] => (s, [])
  | a :: rest =>
      let c := checkpoint_of s a
      let res := run_forward (apply_action s a) rest
      (res.1, c :: res.2)

/-- Modelled from the spec: rollback replays the checkpoint list in reverse
order, invoking each checkpoint's compensating action. -/
def rollback_run (s : DiskState) (cs : List Compensation) : DiskState :=
  cs.reverse.foldl apply_compensation s

/-- Terminal outcome of a transaction run. -/
inductive EngineOutcome
  | Committed (final : DiskState)
  | RolledBack (final : DiskState)
  | RollbackFailed
  deriving DecidableEq, Repr

/-- Modelled from the spec: execute the post-`TransactionOpen` phases with an
injected failure after `fail_after` completed actions (no failure when
`fail_after` is at least the number of actions); on failure the engine rolls
back the completed checkpoints in reverse, and a failure of rollback itself
yields the distinct terminal `RollbackFailed`, never retried. -/
def execute_with_failure (init : DiskState) (acts : List ForwardAction)
    (fail_after : Nat) (rollback_fails : Bool) : EngineOutcome :=
  if fail_after < acts.length then
    let res := run_forward init (acts.take fail_after)
    if rollback_fails then EngineOutcome.RollbackFailed
    else EngineOutcome.RolledBack (rollback_run res.1 res.2)
  else
    EngineOutcome.Committed (run_forward init acts).1

/-! ### Backup gate: engine flag and BackupVerificationDialog -/

/-- Modelled from the spec: `require_backup_confirmation` — the
acknowledgement requirement is satisfied when no used space is at risk or
the externally supplied backup-acknowledgement flag is set. -/
def require_backup_confirmation (used_space_at_risk : Nat)
    (backup_ack : Bool) : Bool :=
  (used_space_at_risk == 0) || backup_ack

/-- Modelled from the spec: the engine's guarded entry into
`TransactionOpen` — it refuses the transition without the backup
acknowledgement when the operation has used space at risk. -/
def enter_transaction_open (current : Phase) (used_space_at_risk : Nat)
    (backup_ack : Bool) : Option Phase :=
  if current == Phase.BackupConfirmed &&
      require_backup_confirmation used_space_at_risk backup_ack then
    some Phase.TransactionOpen
  else
    none

/-- The four acknowledgement checkboxes of `BackupVerificationDialog`
(`SpaceInputDialog.tsx`). -/
structure BackupChecks where
  hasBackup : Bool
  verifiedBackup : Bool
  recentBackup : Bool
  understandsRisk : Bool
  deriving DecidableEq, Repr

/-- `allChecked` of `BackupVerificationDialog`: every checkbox value is
true. -/
def allChecked (c : BackupChecks) : Bool :=
  c.hasBackup && c.verifiedBackup && c.recentBackup && c.understandsRisk

/-- `handleConfirm` of `BackupVerificationDialog`: invokes `onConfirm` only
when `allChecked` holds; the result records whether and with what the
callback ran. -/
def bv_handleConfirm {α : Type} (c : BackupChecks) (onConfirm : Unit → α) :
    Option α :=
  if allChecked c then some (onConfirm ()) else none

/-- The `disabled` attribute of the dialog's continue button:
`!allChecked`. -/
def bv_confirmDisabled (c : BackupChecks) : Bool := !allChecked c

/-! ### In-flight transaction registry (spec section 5) -/

/-- Concurrency-guard error. -/
inductive ConcurrencyError
  | OperationInProgress
  deriving DecidableEq, Repr

/-- Modelled from the spec: registering a transaction in the engine's
per-partition registry.  A request for a partition identifier already in
flight is rejected with `OperationInProgress` — and not queued: the error
carries no registry, so the registry is unchanged.  The registry lock of the
spec serialises these operations, which is why the model treats each
registration as one atomic step. -/
def start_transaction (registry : List String) (pid : String) :
    Except ConcurrencyError (List String) :=
  if pid ∈ registry then Except.error ConcurrencyError.OperationInProgress
  else Except.ok (pid :: registry)

/-! ### Final shrink confirmation dialog (`ConfirmationDialog.tsx`) -/

/-- Character-wise uppercase of a string, the embedding of
`String.prototype.toUpperCase()` on the ASCII inputs the dialog compares
against. -/
def upper_str (s : String) : String := ⟨s.data.map Char.toUpper⟩

/-- The required confirmation keyword of `ConfirmationDialog.tsx`. -/
def shrink_keyword : String := "SHRINK"

/-- `isConfirmed` of `ConfirmationDialog.tsx`:
the typed text, uppercased, equals the keyword. -/
def isConfirmed (confirmText : String) : Bool :=
  upper_str confirmText == shrink_keyword

/-- `handleConfirm` of `ConfirmationDialog.tsx`: calls `onConfirm` only when
`isConfirmed` holds. -/
def cd_handleConfirm {α : Type} (confirmText : String)
    (onConfirm : Unit → α) : Option α :=
  if isConfirmed confirmText then some (onConfirm ()) else none

/-- The `disabled` attribute of the start button: `!isConfirmed`. -/
def startButtonDisabled (confirmText : String) : Bool :=
  !isConfirmed confirmText

/-- The lowercase variant typed by the user in the accepted example. -/
def lower_shrink : String := "shrink"

/-- A different word, rejected by the dialog. -/
def resize_word : String := "RESIZE"

/-! ### Helper lemmas about step numbering -/

theorem assign_numbers_length (n : Nat) (l : List RawStep) :
    (assign_numbers n l).length = l.length := by
  induction l generalizing n with
  | nil => rfl
  | cons r rest ih => simp [assign_numbers, ih]

theorem assign_numbers_map_number (n : Nat) (l : List RawStep) :
    (assign_numbers n l).map ReallocationStep.step_number =
      List.range' n l.length := by
  induction l generalizing n with
  | nil => rfl
  | cons r rest ih => simp [assign_numbers, List.range', ih]

theorem assign_numbers_ge (n : Nat) (l : List RawStep) :
    ∀ st ∈ assign_numbers n l, n ≤ st.step_number := by
  induction l generalizing n with
  | nil => intro st h; cases h
  | cons r rest ih =>
      intro st h
      rcases List.mem_cons.mp h with h | h
      · subst h; exact Nat.le_refl n
      · exact Nat.le_of_succ_le (ih (n + 1) st h)

theorem assign_numbers_append (n : Nat) (l1 l2 : List RawStep) :
    assign_numbers n (l1 ++ l2) =
      assign_numbers n l1 ++ assign_numbers (n + l1.length) l2 := by
  induction l1 generalizing n with
  | nil => simp [assign_numbers]
  | cons r rest ih =>
      have harith : n + 1 + rest.length = n + (rest.length + 1) := by omega
      simp [assign_numbers, ih, harith]

theorem assign_numbers_getLast (n : Nat) (l : List RawStep) (r : RawStep) :
    (assign_numbers n (l ++ [r])).getLast? =
      some ⟨n + l.length, r.title, r.description, r.action_type,
        r.can_automate⟩ := by
  rw [assign_numbers_append]
  simp [assign_numbers]

theorem assign_numbers_countP (n : Nat) (l : List RawStep)
    (p : StepActionType → Bool) :
    (assign_numbers n l).countP (fun st => p st.action_type) =
      l.countP (fun r => p r.action_type) := by
  induction l generalizing n with
  | nil => rfl
  | cons r rest ih => simp [assign_numbers, List.countP_cons, ih]

theorem assign_numbers_count_auto (n : Nat) (l : List RawStep) :
    (assign_numbers n l).countP
        (fun st => st.action_type == StepActionType.AppAutomated) =
      l.countP (fun r => r.action_type == StepActionType.AppAutomated) :=
  assign_numbers_countP n l (fun a => a == StepActionType.AppAutomated)

/-! ### Structural lemmas about the assembled plan -/

theorem build_plan_step_numbers (pid : String) (t : PartitionSnapshot)
    (sources : List PartitionSnapshot) (d : Nat) :
    (build_plan pid t sources d).steps.map ReallocationStep.step_number =
      List.range' 1 (build_plan pid t sources d).steps.length := by
  simp only [build_plan]
  rw [assign_numbers_map_number, assign_numbers_length]

theorem build_plan_backup_leads (pid : String) (t : PartitionSnapshot)
    (sources : List PartitionSnapshot) (d : Nat) :
    (∃ s ∈ (build_plan pid t sources d).source_partitions, 0 < s.used_space) →
    ∃ b, (build_plan pid t sources d).steps.head? = some b ∧
      b.action_type = StepActionType.UserManual ∧ b.step_number = 1 ∧
      (build_plan pid t sources d).warnings ≠ [] ∧
      ∀ st ∈ (build_plan pid t sources d).steps,
        st.action_type = StepActionType.AppAssistedManual →
        b.step_number < st.step_number := by
  intro hex
  obtain ⟨s, hs, hpos⟩ := hex
  simp only [build_plan] at hs ⊢
  obtain ⟨p, hp, hpe⟩ := List.mem_map.mp hs
  have hpu : 0 < p.used_space := by
    subst hpe
    exact hpos
  have hmem : p ∈ sources.filter (fun q => decide (0 < q.used_space)) :=
    List.mem_filter.mpr ⟨hp, decide_eq_true hpu⟩
  rcases hds : sources.filter (fun q => decide (0 < q.used_space)) with _ | ⟨q, qs⟩
  · rw [hds] at hmem; cases hmem
  · rw [hds]
    refine ⟨⟨1, "BACKUP YOUR DATA",
      "Back up every partition scheduled for deletion",
      StepActionType.UserManual, false⟩, ?_, rfl, rfl, ?_, ?_⟩
    · simp [assign_numbers, backup_raw_step]
    · split <;> simp
    · intro st hst hact
      simp only [List.isEmpty_cons, Bool.false_eq_true, if_false,
        List.singleton_append, assign_numbers, backup_raw_step] at hst
      rcases List.mem_cons.mp hst with h | h
      · subst h
        simp at hact
      · exact Nat.lt_of_lt_of_le (Nat.lt_succ_self 1)
          (assign_numbers_ge 2 _ st h)

theorem build_plan_expand_last (pid : String) (t : PartitionSnapshot)
    (sources : List PartitionSnapshot) (d : Nat) :
    ∃ e, (build_plan pid t sources d).steps.getLast? = some e ∧
      e.action_type = StepActionType.AppAutomated ∧
      (build_plan pid t sources d).steps.countP
        (fun st => st.action_type == StepActionType.AppAutomated) = 1 := by
  simp only [build_plan]
  rw [assign_numbers_getLast, assign_numbers_count_auto]
  refine ⟨_, rfl, rfl, ?_⟩
  rw [List.countP_append, List.countP_append]
  have h1 : ((if (sources.filter (fun q => decide (0 < q.used_space))).isEmpty
      then ([] : List RawStep) else [backup_raw_step])).countP
      (fun r => r.action_type == StepActionType.AppAutomated) = 0 := by
    split <;> simp [backup_raw_step]
  have h2 : (sources.map delete_raw_step).countP
      (fun r => r.action_type == StepActionType.AppAutomated) = 0 := by
    rw [List.countP_eq_zero]
    intro r hr
    obtain ⟨p, hp, hpe⟩ := List.mem_map.mp hr
    subst hpe
    simp [delete_raw_step]
  rw [h1, h2]
  simp [expand_raw_step]

/-! ### Claim theorems for the Planner -/

/-- Claim C1: whenever the target partition exists and the desired additional
space is positive, the Planner succeeds and the returned plan satisfies
`target_new_size = target.total_size + min desired_additional_space
total_space_freed`; on the concrete disk `[C:50GB full][E:20GB,5GB used]
[F:30GB]` with target C and desired 15GB the plan frees 20GB and the new
target size is 65GB — which differs from current size plus all freed
space. -/
theorem planner_target_new_size_formula :
    (∀ (disk : List PartitionSnapshot) (pid : String) (d : Nat)
        (t : PartitionSnapshot) (plan : ReallocationPlan),
      0 < d → find_partition disk pid = some t →
      create_space_reallocation_plan disk pid d = Except.ok plan →
      plan.target_new_size = t.total_size + min d plan.total_space_freed) ∧
    (∀ (disk : List PartitionSnapshot) (pid : String) (d : Nat)
        (t : PartitionSnapshot),
      0 < d → find_partition disk pid = some t →
      (plan_freed (create_space_reallocation_plan disk pid d)).isSome = true) ∧
    plan_freed (create_space_reallocation_plan demo_disk c_id (gb 15)) =
      some (gb 20) ∧
    plan_new_size (create_space_reallocation_plan demo_disk c_id (gb 15)) =
      some (gb 65) ∧
    gb 65 ≠ drive_c.total_size + gb 20 := by
  refine ⟨?_, ?_, by decide, by decide, by decide⟩
  · intro disk pid d t plan hd hf hc
    have hd0 : ¬ d = 0 := by omega
    simp only [create_space_reallocation_plan, if_neg hd0, hf] at hc
    injection hc with h
    subst h
    rfl
  · intro disk pid d t hd hf
    have hd0 : ¬ d = 0 := by omega
    simp only [create_space_reallocation_plan, if_neg hd0, hf, plan_freed,
      Option.isSome_some]

/-- Witness for C1 at the concrete scenario inputs. -/
theorem planner_target_new_size_formula_witness :
    0 < gb 15 ∧ find_partition demo_disk c_id = some drive_c ∧
    create_space_reallocation_plan demo_disk c_id (gb 15) =
      Except.ok demo_plan ∧
    demo_plan.target_new_size =
      drive_c.total_size + min (gb 15) demo_plan.total_space_freed :=
  ⟨by decide, rfl, rfl,
    planner_target_new_size_formula.1 demo_disk c_id (gb 15) drive_c demo_plan
      (by decide) rfl rfl⟩

/-- Claim C2: in every plan the Planner returns, step numbers form the
contiguous 1-based sequence; when some source partition holds data the plan
has a leading `UserManual` backup step (number 1) and a warning entry, and
that backup step precedes every `AppAssistedManual` delete step; and the
plan's single `AppAutomated` expand step is last. -/
theorem planner_step_structure :
    ∀ (disk : List PartitionSnapshot) (pid : String) (d : Nat)
      (plan : ReallocationPlan),
      create_space_reallocation_plan disk pid d = Except.ok plan →
      (plan.steps.map ReallocationStep.step_number =
        List.range' 1 plan.steps.length) ∧
      ((∃ s ∈ plan.source_partitions, 0 < s.used_space) →
        ∃ b, plan.steps.head? = some b ∧
          b.action_type = StepActionType.UserManual ∧ b.step_number = 1 ∧
          plan.warnings ≠ [] ∧
          ∀ st ∈ plan.steps,
            st.action_type = StepActionType.AppAssistedManual →
            b.step_number < st.step_number) ∧
      (∃ e, plan.steps.getLast? = some e ∧
        e.action_type = StepActionType.AppAutomated ∧
        plan.steps.countP
          (fun st => st.action_type == StepActionType.AppAutomated) = 1) := by
  intro disk pid d plan hc
  by_cases hd : d = 0
  · simp [create_space_reallocation_plan, hd] at hc
  · rcases hft : find_partition disk pid with _ | t
    · simp [create_space_reallocation_plan, hd, hft] at hc
    · simp only [create_space_reallocation_plan, if_neg hd, hft] at hc
      injection hc with h
      subst h
      exact ⟨build_plan_step_numbers _ _ _ _, build_plan_backup_leads _ _ _ _,
        build_plan_expand_last _ _ _ _⟩

/-- Witness for C2 at the concrete scenario inputs. -/
theorem planner_step_structure_witness :
    create_space_reallocation_plan demo_disk c_id (gb 15) =
      Except.ok demo_plan ∧
    (∃ s ∈ demo_plan.source_partitions, 0 < s.used_space) ∧
    demo_plan.steps.map ReallocationStep.step_number =
      List.range' 1 demo_plan.steps.length ∧
    demo_plan.warnings ≠ [] :=
  ⟨rfl, ⟨source_plan_of drive_e, by decide, by decide⟩,
    (planner_step_structure demo_disk c_id (gb 15) demo_plan rfl).1,
    by
      obtain ⟨b, _, _, _, hw, _⟩ :=
        (planner_step_structure demo_disk c_id (gb 15) demo_plan rfl).2.1
          ⟨source_plan_of drive_e, by decide, by decide⟩
      exact hw⟩

/-- Claim C3: the Planner is pure and idempotent — with an unchanged snapshot
and identical arguments, two calls return identical plans.  In this
functional embedding freedom from side effects is structural: the Planner is
a function of the snapshot and its arguments alone, and this theorem records
that equal inputs give equal outputs. -/
theorem planner_pure_idempotent :
    ∀ (disk1 disk2 : List PartitionSnapshot) (pid1 pid2 : String)
      (d1 d2 : Nat),
      disk1 = disk2 → pid1 = pid2 → d1 = d2 →
      create_space_reallocation_plan disk1 pid1 d1 =
        create_space_reallocation_plan disk2 pid2 d2 := by
  intro disk1 disk2 pid1 pid2 d1 d2 h1 h2 h3
  subst h1
  subst h2
  subst h3
  rfl

/-- Witness for C3 at the concrete scenario inputs. -/
theorem planner_pure_idempotent_witness :
    demo_disk = demo_disk ∧ c_id = c_id ∧ gb 15 = gb 15 ∧
    create_space_reallocation_plan demo_disk c_id (gb 15) =
      create_space_reallocation_plan demo_disk c_id (gb 15) :=
  ⟨rfl, rfl, rfl,
    planner_pure_idempotent demo_disk demo_disk c_id c_id (gb 15) (gb 15)
      rfl rfl rfl⟩

/-- Claim C4: a shrink validation is approved only when
`target_size >= used_space * (1 + safety_margin)` (stated cross-multiplied in
exact integer arithmetic, together with its rational-cast form), hence an
approved shrink is never below `used_space`; a shrink violating the bound
fails with `InsufficientSpace` carrying the minimum safe size; concretely,
shrinking E (5 GB used) to 4 GB under a 10% margin fails with
`InsufficientSpace` at the minimum safe size 5905580032 bytes = 5.5 GB. -/
theorem validator_shrink_floor :
    (∀ (snap : DiskLayoutSnapshot) (cfg : ValidatorConfig) (pid : String)
        (ts : Nat) (ov : Bool) (p : PartitionSnapshot) (op : ResizeOperation),
      find_partition snap.partitions pid = some p →
      ts < p.total_size →
      validate_resize snap cfg pid ts ov = Except.ok op →
      (p.used_space * (cfg.margin_den + cfg.margin_num) ≤
        ts * cfg.margin_den) ∧
      (0 < cfg.margin_den → p.used_space ≤ ts) ∧
      (0 < cfg.margin_den →
        (p.used_space : ℚ) *
          (1 + (cfg.margin_num : ℚ) / (cfg.margin_den : ℚ)) ≤ (ts : ℚ))) ∧
    (∀ (snap : DiskLayoutSnapshot) (cfg : ValidatorConfig) (pid : String)
        (ts : Nat) (ov : Bool) (p : PartitionSnapshot),
      find_partition snap.partitions pid = some p →
      (p.is_protected && !ov) = false →
      ts < p.total_size →
      ¬ (p.used_space * (cfg.margin_den + cfg.margin_num) ≤
        ts * cfg.margin_den) →
      validate_resize snap cfg pid ts ov =
        Except.error
          (ValidateError.InsufficientSpace (min_safe_size cfg p))) ∧
    validate_resize demo_snapshot demo_validator_config e_id (gb 4) false =
      Except.error (ValidateError.InsufficientSpace 5905580032) ∧
    2 * 5905580032 = gb 11 := by
  refine ⟨?_, ?_, rfl, by decide⟩
  · intro snap cfg pid ts ov p op hf hlt hok
    simp only [validate_resize, hf] at hok
    by_cases hpr : (p.is_protected && !ov) = true
    · rw [if_pos hpr] at hok
      exact Except.noConfusion hok
    · rw [if_neg hpr, if_pos hlt] at hok
      by_cases hsz : (!shrink_size_ok cfg p ts) = true
      · rw [if_pos hsz] at hok
        exact Except.noConfusion hok
      · have hok2 : shrink_size_ok cfg p ts = true := by
          cases h : shrink_size_ok cfg p ts
          · rw [h] at hsz
            exact absurd rfl hsz
          · rfl
        have hnat : p.used_space * (cfg.margin_den + cfg.margin_num) ≤
            ts * cfg.margin_den := of_decide_eq_true hok2
        refine ⟨hnat, ?_, ?_⟩
        · intro hden
          have h1 : p.used_space * cfg.margin_den ≤ ts * cfg.margin_den :=
            le_trans (Nat.mul_le_mul_left _ (Nat.le_add_right _ _)) hnat
          exact Nat.le_of_mul_le_mul_right h1 hden
        · intro hden
          have hden0 : ((cfg.margin_den : ℚ)) ≠ 0 := by
            have h2 : cfg.margin_den ≠ 0 := by omega
            exact_mod_cast h2
          have hq : (p.used_space : ℚ) *
              (1 + (cfg.margin_num : ℚ) / (cfg.margin_den : ℚ)) =
              ((p.used_space * (cfg.margin_den + cfg.margin_num) : Nat) : ℚ) /
                ((cfg.margin_den : Nat) : ℚ) := by
            field_simp
          rw [hq, div_le_iff₀ (by exact_mod_cast hden)]
          exact_mod_cast hnat
  · intro snap cfg pid ts ov p hf hpr hlt hns
    simp only [validate_resize, hf, hpr, Bool.false_eq_true, if_false]
    rw [if_pos hlt]
    have hb : (!shrink_size_ok cfg p ts) = true := by
      simp [shrink_size_ok, hns]
    rw [if_pos hb]

/-! ### Helper lemmas about engine trajectories -/

theorem step_preserves_bad : ∀ (d : Direction) (p q : Phase),
    engine_step d p q = true → okFrom p = false → okFrom q = false := by
  decide

theorem no_step_from_terminal : ∀ (d : Direction) (q : Phase),
    engine_step d Phase.Committed q = false := by
  decide

theorem step_ok_succ : ∀ (d : Direction) (p q : Phase),
    engine_step d p q = true → okFrom q = true → q = succ_phase d p := by
  decide

theorem tail_chain_consistent : ∀ (d : Direction) (p : Phase),
    okFrom p = true → p ≠ Phase.Committed →
    tail_chain d p = succ_phase d p :: tail_chain d (succ_phase d p) := by
  decide

theorem traj_ok_of_committed : ∀ (d : Direction) (p : Phase) (l : List Phase)
    (r : Phase), Traj d p l r → r = Phase.Committed → okFrom p = true := by
  intro d p l r ht
  induction ht with
  | single p0 =>
      intro hr
      subst hr
      rfl
  | cons hstep htraj ih =>
      intro hr
      have hq := ih hr
      cases hcase : okFrom _
      · exact absurd hq (by rw [step_preserves_bad _ _ _ hstep hcase]; simp)
      · rfl

theorem traj_chain : ∀ (d : Direction) (p : Phase) (l : List Phase)
    (r : Phase), Traj d p l r → r = Phase.Committed → okFrom p = true →
    l = p :: tail_chain d p := by
  intro d p l r ht
  induction ht with
  | single p0 =>
      intro hr _
      subst hr
      rfl
  | cons hstep htraj ih =>
      intro hr hp
      subst hr
      rename_i p1 q1 l1
      have hq : okFrom q1 = true := traj_ok_of_committed _ _ _ _ htraj rfl
      have hqe : q1 = succ_phase _ p1 := step_ok_succ _ _ _ hstep hq
      have hpc : p1 ≠ Phase.Committed := by
        intro hpcc
        subst hpcc
        rw [no_step_from_terminal] at hstep
        exact Bool.noConfusion hstep
      have ihl := ih rfl hq
      rw [ihl, hqe, tail_chain_consistent _ _ hp hpc]

/-- Claim C5: no run reaches `Committed` from `TransactionOpen` except
through the direction-appropriate sub-phase ordering followed by
`Verifying` — when shrinking, `FilesystemResized` before
`PartitionTableUpdated`; when growing, the reverse — whatever external tool
performs the work (the model treats each phase as an opaque external
action). -/
theorem engine_commit_ordering :
    ∀ (l : List Phase),
      (Traj Direction.Shrink Phase.TransactionOpen l Phase.Committed →
        l = [Phase.TransactionOpen, Phase.FilesystemResized,
          Phase.PartitionTableUpdated, Phase.Verifying, Phase.Committed]) ∧
      (Traj Direction.Grow Phase.TransactionOpen l Phase.Committed →
        l = [Phase.TransactionOpen, Phase.PartitionTableUpdated,
          Phase.FilesystemResized, Phase.Verifying, Phase.Committed]) := by
  intro l
  constructor
  · intro ht
    exact traj_chain Direction.Shrink Phase.TransactionOpen l
      Phase.Committed ht rfl rfl
  · intro ht
    exact traj_chain Direction.Grow Phase.TransactionOpen l
      Phase.Committed ht rfl rfl

/-- Witness for C5: the canonical shrink run from `TransactionOpen`. -/
theorem engine_commit_ordering_witness :
    Traj Direction.Shrink Phase.TransactionOpen
      [Phase.TransactionOpen, Phase.FilesystemResized,
        Phase.PartitionTableUpdated, Phase.Verifying, Phase.Committed]
      Phase.Committed ∧
    [Phase.TransactionOpen, Phase.FilesystemResized,
      Phase.PartitionTableUpdated, Phase.Verifying, Phase.Committed] =
      [Phase.TransactionOpen, Phase.FilesystemResized,
        Phase.PartitionTableUpdated, Phase.Verifying, Phase.Committed] := by
  have ht : Traj Direction.Shrink Phase.TransactionOpen
      [Phase.TransactionOpen, Phase.FilesystemResized,
        Phase.PartitionTableUpdated, Phase.Verifying, Phase.Committed]
      Phase.Committed :=
    Traj.cons (by decide) (Traj.cons (by decide) (Traj.cons (by decide)
      (Traj.cons (by decide) (Traj.single Phase.Committed))))
  exact ⟨ht, (engine_commit_ordering _).1 ht⟩

/-- Claim C7: over any complete run of one transaction the Reporter emits
exactly one `ProgressEvent` per visited phase, the emitted percentages are
monotonically non-decreasing, and no phase of the success path is
skipped — the run is exactly the canonical phase chain. -/
theorem reporter_progress_monotone :
    ∀ (d : Direction) (l : List Phase),
      Traj d Phase.Pending l Phase.Committed →
      (progress_events d l).length = l.length ∧
      List.Chain' (fun a b => a.percentage ≤ b.percentage)
        (progress_events d l) ∧
      l = Phase.Pending :: tail_chain d Phase.Pending := by
  intro d l ht
  have hl := traj_chain d Phase.Pending l Phase.Committed ht rfl rfl
  subst hl
  refine ⟨by simp [progress_events], ?_, rfl⟩
  cases d <;>
    simp [progress_events, tail_chain, percent, List.chain'_cons]

/-- Witness for C7: the canonical grow run from `Pending`. -/
theorem reporter_progress_monotone_witness :
    Traj Direction.Grow Phase.Pending
      [Phase.Pending, Phase.Validating, Phase.BackupConfirmed,
        Phase.TransactionOpen, Phase.PartitionTableUpdated,
        Phase.FilesystemResized, Phase.Verifying, Phase.Committed]
      Phase.Committed ∧
    List.Chain' (fun a b => a.percentage ≤ b.percentage)
      (progress_events Direction.Grow
        [Phase.Pending, Phase.Validating, Phase.BackupConfirmed,
          Phase.TransactionOpen, Phase.PartitionTableUpdated,
          Phase.FilesystemResized, Phase.Verifying, Phase.Committed]) := by
  have ht : Traj Direction.Grow Phase.Pending
      [Phase.Pending, Phase.Validating, Phase.BackupConfirmed,
        Phase.TransactionOpen, Phase.PartitionTableUpdated,
        Phase.FilesystemResized, Phase.Verifying, Phase.Committed]
      Phase.Committed :=
    Traj.cons (by decide) (Traj.cons (by decide) (Traj.cons (by decide)
      (Traj.cons (by decide) (Traj.cons (by decide) (Traj.cons (by decide)
        (Traj.cons (by decide) (Traj.single Phase.Committed)))))))
  exact ⟨ht, (reporter_progress_monotone Direction.Grow _ ht).2.1⟩

/-! ### Helper lemmas about rollback -/

theorem comp_inverts (s : DiskState) (a : ForwardAction) :
    apply_compensation (apply_action s a) (checkpoint_of s a) = s := by
  cases a <;> rfl

theorem rollback_inverts : ∀ (acts : List ForwardAction) (s : DiskState),
    rollback_run (run_forward s acts).1 (run_forward s acts).2 = s := by
  intro acts
  induction acts with
  | nil => intro s; rfl
  | cons a rest ih =>
      intro s
      simp only [run_forward, rollback_run, List.reverse_cons,
        List.foldl_append, List.foldl_cons, List.foldl_nil]
      have hrest := ih (apply_action s a)
      simp only [rollback_run] at hrest
      rw [hrest]
      exact comp_inverts s a

/-- Claim C6: for a failure injected after any number of completed
post-`TransactionOpen` actions, the engine rolls the checkpoint list back in
reverse order and the resulting partition extent and filesystem size equal
the pre-transaction values; when rollback itself fails the run ends in the
distinct terminal `RollbackFailed`, which is not a rolled-back state. -/
theorem engine_rollback_restores :
    ∀ (init : DiskState) (acts : List ForwardAction) (n : Nat),
      n < acts.length →
      execute_with_failure init acts n false = EngineOutcome.RolledBack init ∧
      execute_with_failure init acts n true = EngineOutcome.RollbackFailed ∧
      ∀ s : DiskState,
        EngineOutcome.RollbackFailed ≠ EngineOutcome.RolledBack s := by
  intro init acts n hn
  refine ⟨?_, ?_, fun s h => EngineOutcome.noConfusion h⟩
  · simp only [execute_with_failure, if_pos hn, Bool.false_eq_true, if_false]
    rw [rollback_inverts]
  · simp [execute_with_failure, if_pos hn]

/-- Witness for C6: a shrink whose table update fails after the filesystem
resize completed; rollback restores the 50 GB extent and filesystem. -/
theorem engine_rollback_restores_witness :
    1 < [ForwardAction.ResizeFs (gb 40),
      ForwardAction.UpdateTable 0 (gb 40)].length ∧
    execute_with_failure ⟨0, gb 50, gb 50⟩
      [ForwardAction.ResizeFs (gb 40), ForwardAction.UpdateTable 0 (gb 40)]
      1 false = EngineOutcome.RolledBack ⟨0, gb 50, gb 50⟩ ∧
    execute_with_failure ⟨0, gb 50, gb 50⟩
      [ForwardAction.ResizeFs (gb 40), ForwardAction.UpdateTable 0 (gb 40)]
      1 true = EngineOutcome.RollbackFailed :=
  ⟨by decide,
    (engine_rollback_restores ⟨0, gb 50, gb 50⟩
      [ForwardAction.ResizeFs (gb 40), ForwardAction.UpdateTable 0 (gb 40)]
      1 (by decide)).1,
    (engine_rollback_restores ⟨0, gb 50, gb 50⟩
      [ForwardAction.ResizeFs (gb 40), ForwardAction.UpdateTable 0 (gb 40)]
      1 (by decide)).2.1⟩

/-- Witness for C4: the rejected 4 GB shrink and the approved 10 GB shrink
of partition E. -/
theorem validator_shrink_floor_witness :
    find_partition demo_snapshot.partitions e_id = some drive_e ∧
    (drive_e.is_protected && !false) = false ∧
    gb 4 < drive_e.total_size ∧
    ¬ (drive_e.used_space * (demo_validator_config.margin_den +
        demo_validator_config.margin_num) ≤
      gb 4 * demo_validator_config.margin_den) ∧
    validate_resize demo_snapshot demo_validator_config e_id (gb 4) false =
      Except.error (ValidateError.InsufficientSpace
        (min_safe_size demo_validator_config drive_e)) ∧
    min_safe_size demo_validator_config drive_e = 5905580032 ∧
    validate_resize demo_snapshot demo_validator_config e_id (gb 10) false =
      Except.ok demo_shrink_op ∧
    drive_e.used_space ≤ gb 10 :=
  ⟨rfl, rfl, by decide, by decide,
    validator_shrink_floor.2.1 demo_snapshot demo_validator_config e_id (gb 4)
      false drive_e rfl rfl (by decide) (by decide),
    by decide, rfl,
    (validator_shrink_floor.1 demo_snapshot demo_validator_config e_id (gb 10)
      false drive_e demo_shrink_op rfl (by decide) rfl).2.1 (by decide)⟩

/-- Claim C8: the engine enters `TransactionOpen` only from
`BackupConfirmed` and, when the operation has nonzero used space at risk,
only with the externally supplied backup-acknowledgement flag set; and in
`BackupVerificationDialog` the confirm action fires only when all four
acknowledgement checkboxes are checked (the confirm button is enabled
exactly when they are). -/
theorem backup_gate_required :
    (∀ (ph : Phase) (used : Nat) (ack : Bool),
      enter_transaction_open ph used ack = some Phase.TransactionOpen →
      0 < used → ack = true) ∧
    (∀ (ph : Phase) (used : Nat) (ack : Bool),
      enter_transaction_open ph used ack = some Phase.TransactionOpen →
      ph = Phase.BackupConfirmed) ∧
    (∀ {α : Type} (c : BackupChecks) (cb : Unit → α),
      (bv_handleConfirm c cb).isSome = true →
      c.hasBackup = true ∧ c.verifiedBackup = true ∧
        c.recentBackup = true ∧ c.understandsRisk = true) ∧
    (∀ (c : BackupChecks), bv_confirmDisabled c = false →
      allChecked c = true) := by
  refine ⟨?_, ?_, ?_, ?_⟩
  · intro ph used ack h hu
    by_cases hc : (ph == Phase.BackupConfirmed &&
        require_backup_confirmation used ack) = true
    · rw [Bool.and_eq_true] at hc
      have hr : require_backup_confirmation used ack = true := hc.2
      simp only [require_backup_confirmation, Bool.or_eq_true,
        beq_iff_eq] at hr
      rcases hr with hr | hr
      · omega
      · exact hr
    · rw [enter_transaction_open, if_neg hc] at h
      exact Option.noConfusion h
  · intro ph used ack h
    by_cases hc : (ph == Phase.BackupConfirmed &&
        require_backup_confirmation used ack) = true
    · rw [Bool.and_eq_true] at hc
      exact beq_iff_eq.mp hc.1
    · rw [enter_transaction_open, if_neg hc] at h
      exact Option.noConfusion h
  · intro α c cb h
    by_cases hc : allChecked c = true
    · simp only [allChecked, Bool.and_eq_true] at hc
      exact ⟨hc.1.1.1, hc.1.1.2, hc.1.2, hc.2⟩
    · rw [bv_handleConfirm, if_neg hc] at h
      simp at h
  · intro c h
    simp only [bv_confirmDisabled, Bool.not_eq_false'] at h
    exact h

/-- Witness for C8: a 5 GB-at-risk entry with the flag set, and the dialog
with all four boxes checked. -/
theorem backup_gate_required_witness :
    enter_transaction_open Phase.BackupConfirmed (gb 5) true =
      some Phase.TransactionOpen ∧
    0 < gb 5 ∧ true = true ∧
    (bv_handleConfirm ⟨true, true, true, true⟩
      (fun _ => (0 : Nat))).isSome = true ∧
    BackupChecks.hasBackup ⟨true, true, true, true⟩ = true :=
  ⟨rfl, by decide,
    backup_gate_required.1 Phase.BackupConfirmed (gb 5) true rfl (by decide),
    rfl,
    (backup_gate_required.2.2.1 ⟨true, true, true, true⟩
      (fun _ => (0 : Nat)) rfl).1⟩

/-- Claim C9: the registry admits at most one in-flight transaction per
partition identifier — after a successful registration, a second request for
the same identifier fails with `OperationInProgress` (rejected, the error
carries no registry state, so nothing is queued) while the first remains
registered; rejection happens exactly when the identifier is in flight, and
registration preserves registry distinctness. -/
theorem single_inflight_transaction :
    (∀ (reg : List String) (pid : String) (reg2 : List String),
      start_transaction reg pid = Except.ok reg2 →
      start_transaction reg2 pid =
        Except.error ConcurrencyError.OperationInProgress) ∧
    (∀ (reg : List String) (pid : String) (reg2 : List String),
      start_transaction reg pid = Except.ok reg2 → pid ∈ reg2) ∧
    (∀ (reg : List String) (pid : String),
      start_transaction reg pid =
        Except.error ConcurrencyError.OperationInProgress → pid ∈ reg) ∧
    (∀ (reg : List String) (pid : String) (reg2 : List String),
      reg.Nodup → start_transaction reg pid = Except.ok reg2 →
      reg2.Nodup) := by
  have hok : ∀ (reg : List String) (pid : String) (reg2 : List String),
      start_transaction reg pid = Except.ok reg2 →
      pid ∉ reg ∧ reg2 = pid :: reg := by
    intro reg pid reg2 h
    by_cases hm : pid ∈ reg
    · rw [start_transaction, if_pos hm] at h
      exact Except.noConfusion h
    · rw [start_transaction, if_neg hm] at h
      injection h with h2
      exact ⟨hm, h2.symm⟩
  refine ⟨?_, ?_, ?_, ?_⟩
  · intro reg pid reg2 h
    obtain ⟨_, h2⟩ := hok reg pid reg2 h
    subst h2
    rw [start_transaction, if_pos (List.mem_cons_self pid reg)]
  · intro reg pid reg2 h
    obtain ⟨_, h2⟩ := hok reg pid reg2 h
    subst h2
    exact List.mem_cons_self pid reg
  · intro reg pid h
    by_cases hm : pid ∈ reg
    · exact hm
    · rw [start_transaction, if_neg hm] at h
      exact Except.noConfusion h
  · intro reg pid reg2 hn h
    obtain ⟨hm, h2⟩ := hok reg pid reg2 h
    subst h2
    exact List.Nodup.cons hm hn

/-- Witness for C9: registering C succeeds on an empty registry and a second
registration of C is rejected. -/
theorem single_inflight_transaction_witness :
    start_transaction [] c_id = Except.ok [c_id] ∧
    start_transaction [c_id] c_id =
      Except.error ConcurrencyError.OperationInProgress ∧
    c_id ∈ [c_id] ∧ List.Nodup ([] : List String) ∧ List.Nodup [c_id] :=
  ⟨rfl, single_inflight_transaction.1 [] c_id [c_id] rfl,
    single_inflight_transaction.2.1 [] c_id [c_id] rfl,
    List.nodup_nil,
    single_inflight_transaction.2.2.2 [] c_id [c_id] List.nodup_nil rfl⟩

/-- Claim C10: in `ConfirmationDialog` the `onConfirm` callback is
unreachable unless the typed text, uppercased, equals exactly `SHRINK`: for
every other input the start button is disabled and `handleConfirm` does not
invoke `onConfirm`; the match is case-insensitive, so `shrink` is accepted,
while a different word such as `RESIZE` is not. -/
theorem shrink_confirmation_gate :
    (∀ {α : Type} (t : String) (cb : Unit → α),
      (cd_handleConfirm t cb).isSome = true →
      upper_str t = shrink_keyword) ∧
    (∀ (t : String), upper_str t ≠ shrink_keyword →
      startButtonDisabled t = true ∧
      ∀ {α : Type} (cb : Unit → α), cd_handleConfirm t cb = none) ∧
    isConfirmed lower_shrink = true ∧
    startButtonDisabled lower_shrink = false ∧
    isConfirmed resize_word = false ∧
    startButtonDisabled resize_word = true := by
  refine ⟨?_, ?_, by decide, by decide, by decide, by decide⟩
  · intro α t cb h
    by_cases hc : isConfirmed t = true
    · exact beq_iff_eq.mp hc
    · rw [cd_handleConfirm, if_neg hc] at h
      simp at h
  · intro t hne
    have hf : isConfirmed t = false := by
      simp only [isConfirmed]
      exact beq_eq_false_iff_ne.mpr hne
    constructor
    · rw [startButtonDisabled, hf]
      rfl
    · intro α cb
      rw [cd_handleConfirm, if_neg]
      rw [hf]
      simp

/-- Witness for C10: the lowercase `shrink` reaches the callback while
`RESIZE` leaves the button disabled. -/
theorem shrink_confirmation_gate_witness :
    (cd_handleConfirm lower_shrink (fun _ => (0 : Nat))).isSome = true ∧
    upper_str lower_shrink = shrink_keyword ∧
    upper_str resize_word ≠ shrink_keyword ∧
    startButtonDisabled resize_word = true :=
  ⟨rfl,
    shrink_confirmation_gate.1 lower_shrink (fun _ => (0 : Nat)) rfl,
    by decide,
    (shrink_confirmation_gate.2.1 resize_word (by decide)).1⟩

end PartitionToolkit
